import Mathlib

/-
Verification of the resumable batch-processing orchestrator of the
UNComtrade automation repository.

The development shallowly embeds the decision logic of the bots:
  - the pagination cursor resolver of
    src/bots/manage_suspended_queries_bot.py (_do_pagination_logic) and
    src/bots/send_download_query_bot.py (_do_pagination_logic),
  - the stagnation detector and orchestrator loop of
    src/bots/send_execute_query_bot.py (_check_progress, process_query),
  - the session runner of send_execute_query_bot.py (_run_iteration,
    process_country) and the legacy variant send_query_bot.py (run),
  - the checkpoint loaders and the work-set computation of
    src/bots/reprocess_suspended_bot.py (_load_processed_pairs,
    _load_suspended_pairs, _extract_iso3_from_reporter, run) and
    manage_suspended_queries_bot.py (_load_last_page).

External effects (browser interaction, file IO) are abstracted into
explicit inputs: the per-item unit of work and the durability of each
checkpoint write become boolean-valued oracles, file contents become
Option-wrapped values (none for a missing file).  Character-level string
handling models the ASCII fragment of the Python semantics (the CSV data
processed by the bots is ASCII); this is noted at each definition it
concerns.
-/

namespace UNComtrade

/-! ## Pagination cursor resolver

A pager row of the remote grid is a list of cells; each numeric cell
carries whether it is rendered as an anchor (clickable) or a span (the
current page), and an ellipsis cell is always an anchor.  This mirrors
the JS snapshot in _do_pagination_logic, which collects the texts of
td span and td a elements, keeps the numeric ones as visible pages, and
tests anchors for a text containing three dots. -/

inductive PagerCell where
  | num (n : Nat) (isAnchor : Bool)
  | dots
deriving DecidableEq, Repr, BEq

/-- Visible page numbers of the pager row: numeric texts of the
td span / td a cells (the ellipsis text is not numeric and is dropped
by the isNaN filter in the source). -/
def visiblePages (row : List PagerCell) : List Nat :=
  row.filterMap fun c => match c with
    | .num n _ => some n
    | .dots => none

/-- Anchor (a) elements of the pager row. -/
def anchorCells (row : List PagerCell) : List PagerCell :=
  row.filter fun c => match c with
    | .num _ a => a
    | .dots => true

/-- has_ellipsis of the snapshot: some anchor text contains three dots. -/
def hasEllipsis (row : List PagerCell) : Bool :=
  (anchorCells row).any fun c => match c with
    | .dots => true
    | _ => false

/-- can_go_forward of manage_suspended_queries_bot: the last anchor of the
pager row is an ellipsis. -/
def canGoForward (row : List PagerCell) : Bool :=
  match (anchorCells row).getLast? with
  | some .dots => true
  | _ => false

/-- Modelled from the spec: the backward "more" affordance of the
PageWindow data model (a leading ellipsis anchor before the first
visible page).  The source never computes this; it is defined here,
from the words of the spec, to compare the implemented resolver with
the specified one. -/
def spec_has_backward_more (row : List PagerCell) : Bool :=
  match (anchorCells row).head? with
  | some .dots => true
  | _ => false

def maxList (l : List Nat) : Nat := l.foldl max 0

def minList : List Nat → Nat
  | [] => 0
  | x :: xs => xs.foldl min x

/-- The single navigation action decided by one resolution step. -/
inductive PagAction where
  | wait
  | jump (page : Nat)
  | clickEllipsis (lastOne : Bool)
  | stop
deriving DecidableEq, Repr, BEq

/-- One resolution step of ManageSuspendedQueriesBot._do_pagination_logic:
given the pager row snapshot, the target page and the 0-indexed attempt
number, decide the next action.  wait re-snapshots on the next attempt,
jump clicks the page link and succeeds, clickEllipsis true / false clicks
the last / first ellipsis anchor, stop returns failure (end of list, or
the break after attempt 5 in the no-ellipsis branch). -/
def managePagStep (row : List PagerCell) (page_index : Nat) (attempt : Nat) : PagAction :=
  let visible_pages := visiblePages row
  if visible_pages = [] then .wait
  else if page_index ∈ visible_pages then .jump page_index
  else if hasEllipsis row then
    if page_index > maxList visible_pages then
      if canGoForward row then .clickEllipsis true else .stop
    else .clickEllipsis false
  else
    if page_index > maxList visible_pages then .stop
    else if attempt > 5 then .stop
    else .wait

/-- One resolution step of SendDownloadQueryBot._do_pagination_logic.
It differs from the manage variant: no can_go_forward check before
expanding forward, and no immediate end-of-list return in the
no-ellipsis branch. -/
def downloadPagStep (row : List PagerCell) (page_index : Nat) (attempt : Nat) : PagAction :=
  let visible_pages := visiblePages row
  if visible_pages = [] then .wait
  else if page_index ∈ visible_pages then .jump page_index
  else if hasEllipsis row then
    if page_index > maxList visible_pages then .clickEllipsis true
    else .clickEllipsis false
  else
    if attempt > 5 then .stop
    else .wait

def isDecisive : PagAction → Bool
  | .jump _ => true
  | .stop => true
  | _ => false

def isJumpAction : PagAction → Bool
  | .jump _ => true
  | _ => false

/-- The attempt loop of _do_pagination_logic: up to fuel further attempts,
starting at the given attempt index; snap gives the pager row observed at
each attempt.  Returns whether the navigation succeeded together with the
number of resolution steps performed. -/
def pagLoopAux (step : List PagerCell → Nat → Nat → PagAction)
    (snap : Nat → List PagerCell) (page_index : Nat) : Nat → Nat → Bool × Nat
  | 0, attempt => (false, attempt)
  | fuel + 1, attempt =>
    match step (snap attempt) page_index attempt with
    | .jump _ => (true, attempt + 1)
    | .stop => (false, attempt + 1)
    | _ => pagLoopAux step snap page_index fuel (attempt + 1)

/-- ManageSuspendedQueriesBot._do_pagination_logic: 15 attempts maximum. -/
def manage_do_pagination_logic (snap : Nat → List PagerCell) (page_index : Nat) : Bool × Nat :=
  pagLoopAux managePagStep snap page_index 15 0

/-- SendDownloadQueryBot._do_pagination_logic: 15 attempts maximum. -/
def download_do_pagination_logic (snap : Nat → List PagerCell) (page_index : Nat) : Bool × Nat :=
  pagLoopAux downloadPagStep snap page_index 15 0

/-! ## Stagnation detector and orchestrator loop
(send_execute_query_bot.py) -/

/-- SendQueryBot._check_progress: returns
(is_stagnant, new_last_count, new_stagnant_iters). -/
def check_progress (current_count last_count stagnant_iters : Nat) : Bool × Nat × Nat :=
  let p := if current_count = last_count then (last_count, stagnant_iters + 1)
           else (current_count, 0)
  (decide (5 ≤ p.2), p.1, p.2)

/-- The while loop of SendQueryBot.process_query, with the per-session
work (browser session, login, item iteration) abstracted into sessionFn,
which maps the undone work set before a session to the undone work set
after it.  fuel bounds the recursion; the value returned is the number of
sessions run together with the final undone work set. -/
def process_query_loop (sessionFn : List String → List String) :
    Nat → List String → Nat → Nat → Nat × List String
  | 0, undone, _, _ => (0, undone)
  | fuel + 1, undone, last_count, stagnant_iters =>
    if undone = [] then (0, undone)
    else
      let u2 := sessionFn undone
      let r := check_progress u2.length last_count stagnant_iters
      if r.1 then (1, u2)
      else
        let k := process_query_loop sessionFn fuel u2 r.2.1 r.2.2
        (k.1 + 1, k.2)

/-- SendQueryBot.process_query: the orchestrator starts with the full
country list as the undone set, last_undone_count equal to its size and
a zero stagnation counter. -/
def process_query (sessionFn : List String → List String)
    (countries : List String) (fuel : Nat) : Nat × List String :=
  process_query_loop sessionFn fuel countries countries.length 0

/-! ## Session runner (send_execute_query_bot.py) -/

/-- Observable events of the per-item success path: the durable success
marker write (or its logged failure) and the removal of the item from the
in-memory undone map. -/
inductive Event where
  | persistMarker (key : String)
  | persistFailed (key : String)
  | removeWorkItem (key : String)
deriving DecidableEq, Repr, BEq

/-- SendQueryBot.process_country: stepsOk is the outcome of
process_field_steps, markerOk whether the success-marker write commits.
On success the marker write is attempted inside a try/except whose
failure is only logged, and True is returned either way; on a step
failure the exception is caught and False returned with no marker
write. -/
def process_country (stepsOk markerOk : Bool) (key : String) : Bool × List Event :=
  if stepsOk then
    (true, [if markerOk then Event.persistMarker key else Event.persistFailed key])
  else
    (false, [])

/-- The item loop of SendQueryBot._run_iteration: iterate a snapshot of
the undone map; on success delete the key from the map and continue, on
the first failure break out, leaving the failed key and all later keys
undone.  Returns (undone map after the session, keys attempted in order,
event trace). -/
def run_iteration_go (proc markerOk : String → Bool) :
    List (String × String) → List (String × String) × List String × List Event
  | [] => ([], [], [])
  | (key, name) :: rest =>
    let pr := process_country (proc key) (markerOk key) key
    if pr.1 then
      let r := run_iteration_go proc markerOk rest
      (r.1, key :: r.2.1, pr.2 ++ Event.removeWorkItem key :: r.2.2)
    else
      ((key, name) :: rest, [key], pr.2)

/-- SendQueryBot._run_iteration: on a login failure the undone map is
returned unchanged with no item attempted; otherwise the item loop
runs. -/
def run_iteration (loginOk : Bool) (proc markerOk : String → Bool)
    (undone : List (String × String)) :
    List (String × String) × List String × List Event :=
  if loginOk then run_iteration_go proc markerOk undone else (undone, [], [])

/-- The inner country loop of the legacy SendQueryBot.run
(send_query_bot.py): every key of the session snapshot is attempted; a
failure is logged and iteration continues with the next key (there is no
break).  Returns (undone map after the pass, keys attempted in order). -/
def send_query_run_pass (proc : String → Bool) :
    List (String × String) → List (String × String) × List String
  | [] => ([], [])
  | (key, name) :: rest =>
    let r := send_query_run_pass proc rest
    if proc key then (r.1, key :: r.2)
    else ((key, name) :: r.1, key :: r.2)

/-- The session-runner property claimed by the spec: every attempted item
except possibly the last one succeeded, i.e. no item is attempted after a
failing one in the same session. -/
def stops_on_first_failure (proc : String → Bool) (attempted : List String) : Bool :=
  attempted.dropLast.all proc

/-- The per-item block of the success-path event trace: the marker write
(persisted or failed) immediately followed by the in-memory removal. -/
def item_trace (markerOk : String → Bool) (key : String) : List Event :=
  [if markerOk key then Event.persistMarker key else Event.persistFailed key,
   Event.removeWorkItem key]

/-- The event trace of one session over the given keys: items succeed and
emit their block until the first failing key, which emits nothing and
ends the session. -/
def session_trace (proc markerOk : String → Bool) : List String → List Event
  | [] => []
  | k :: ks =>
    if proc k then item_trace markerOk k ++ session_trace proc markerOk ks
    else []

/-! ## Reprocess bot (reprocess_suspended_bot.py) -/

/-- The composite checkpoint key of a (query_name, iso3) pair. -/
def pair_key (query_name iso3 : String) : String := query_name ++ "|" ++ iso3

/-- The filtering in ReprocessSuspendedBot.run that computes the pairs
still to process: keep the pairs of the loaded CSV whose key is not in
the already-processed set. -/
def pairs_to_process (all_pairs : List (String × String × String))
    (processed_pairs : List String) : List (String × String × String) :=
  all_pairs.filter fun p => !(processed_pairs.contains (pair_key p.1 p.2.1))

/-- The main pass of ReprocessSuspendedBot.run over a list of pairs:
proc is the outcome of process_pair (which catches its own exceptions),
markOk whether the _mark_as_processed write succeeds.  _mark_as_processed
has no exception handling of its own, so a failing write raises out of
the loop into the run-level handler: the pass aborts, no later pair is
attempted.  Returns (pairs attempted in order, failed pairs in order,
whether the pass aborted on a mark write failure). -/
def reprocess_run_go (proc markOk : String × String × String → Bool) :
    List (String × String × String) →
    List (String × String × String) × List (String × String × String) × Bool
  | [] => ([], [], false)
  | p :: rest =>
    if proc p then
      if markOk p then
        let r := reprocess_run_go proc markOk rest
        (p :: r.1, r.2.1, r.2.2)
      else ([p], [], true)
    else
      let r := reprocess_run_go proc markOk rest
      (p :: r.1, p :: r.2.1, r.2.2)

/-- The retry loop of ReprocessSuspendedBot.run: repeat passes over the
failed pairs while some remain and fewer than 5 consecutive passes made
no progress.  fuel bounds the recursion.  Returns (pairs attempted during
the retries in order, final failed pairs). -/
def retry_loop (proc markOk : String × String × String → Bool) :
    Nat → List (String × String × String) → Nat → Nat →
    List (String × String × String) × List (String × String × String)
  | 0, failed, _, _ => ([], failed)
  | fuel + 1, failed, previous_failed_count, no_progress_count =>
    if failed = [] ∨ 5 ≤ no_progress_count then ([], failed)
    else
      let r := reprocess_run_go proc markOk failed
      let still := r.2.1
      if r.2.2 then (r.1, still)
      else if still.length = previous_failed_count then
        if 5 ≤ no_progress_count + 1 then (r.1, still)
        else
          let k := retry_loop proc markOk fuel still still.length (no_progress_count + 1)
          (r.1 ++ k.1, k.2)
      else
        let k := retry_loop proc markOk fuel still still.length 0
        (r.1 ++ k.1, k.2)

/-- The whole of ReprocessSuspendedBot.run after loading: filter the
loaded pairs against the processed set, run the main pass, and unless it
aborted run the retry loop over the failed pairs.  Returns every pair
attempted during the run, in order. -/
def reprocess_run (proc markOk : String × String × String → Bool)
    (all_pairs : List (String × String × String))
    (processed_pairs : List String) (fuel : Nat) :
    List (String × String × String) :=
  let ptp := pairs_to_process all_pairs processed_pairs
  let m := reprocess_run_go proc markOk ptp
  if m.2.2 then m.1
  else m.1 ++ (retry_loop proc markOk fuel m.2.1 m.2.1.length 0).1

/-! ## Checkpoint store loaders -/

/-- Python str.strip() on its ASCII-whitespace fragment: drop whitespace
from both ends. -/
def py_strip (s : String) : String :=
  String.mk (((s.data.dropWhile Char.isWhitespace).reverse.dropWhile
    Char.isWhitespace).reverse)

/-- ReprocessSuspendedBot._load_processed_pairs: a missing file yields the
empty set; otherwise each line is stripped and the nonempty results are
collected.  The Python set is modelled as a list whose membership is what
the callers consult. -/
def load_processed_pairs (store : Option (List String)) : List String :=
  match store with
  | none => []
  | some lines => (lines.map py_strip).filter fun l => l ≠ ""

/-- Python int() digit tail: digits with single underscores between
digit groups (ASCII digits only are modelled). -/
def pyIntTail : List Char → Bool
  | [] => true
  | ['_'] => false
  | '_' :: d :: rest => d.isDigit && pyIntTail (d :: rest)
  | c :: rest => c.isDigit && pyIntTail rest

/-- Python int() over a string: optional surrounding whitespace, optional
sign, then a nonempty digit sequence with optional single underscores
between digits.  none models the ValueError raised otherwise. -/
def py_int (s : String) : Option Int :=
  let t := (py_strip s).data
  let body := match t with
    | '+' :: r => r
    | '-' :: r => r
    | r => r
  let neg := match t with
    | '-' :: _ => true
    | _ => false
  let valid := match body with
    | [] => false
    | d :: rest => d.isDigit && pyIntTail rest
  if valid then
    let n : Nat := (body.filter fun c => c ≠ '_').foldl (fun a c => 10 * a + (c.toNat - 48)) 0
    some (if neg then -(n : Int) else (n : Int))
  else none

/-- ManageSuspendedQueriesBot._load_last_page: missing file, or any
exception while reading or parsing the stored integer, falls back to
page 1. -/
def load_last_page (store : Option String) : Int :=
  match store with
  | none => 1
  | some s =>
    match py_int (py_strip s) with
    | some n => n
    | none => 1

/-! ## Suspended-pairs CSV loader (reprocess_suspended_bot.py) -/

/-- The first whitespace-delimited token of the stripped reporter field:
parts[0] of the re.split on whitespace runs in
_extract_iso3_from_reporter (the extra parts[0].strip() of the source is
the identity, the token containing no whitespace). -/
def iso3_token (reporter_field : String) : List Char :=
  (py_strip reporter_field).data.takeWhile fun c => !c.isWhitespace

/-- The validation of _extract_iso3_from_reporter: length 3, isalpha()
and isupper().  isalpha/isupper are modelled on their ASCII fragment:
cased characters are the ASCII letters. -/
def iso3_ok (t : List Char) : Bool :=
  t.length = 3
    && (!t.isEmpty && t.all Char.isAlpha)
    && (t.any Char.isAlpha && t.all fun c => !c.isLower)

/-- ReprocessSuspendedBot._extract_iso3_from_reporter: an empty (falsy)
field yields none; otherwise the first token of the stripped field is
accepted exactly when the validation passes. -/
def extract_iso3_from_reporter (reporter_field : String) : Option String :=
  if reporter_field = "" then none
  else if iso3_ok (iso3_token reporter_field) then
    some (String.mk (iso3_token reporter_field))
  else none

/-- One CSV row of _load_suspended_pairs: rows with fewer than 3 columns
are skipped; otherwise the stripped query name must be nonempty and the
stripped reporter field must yield an ISO3 code.  The produced entry is
(query_name, iso3, reporter_field). -/
def row_entry (row : List String) : Option (String × String × String) :=
  if 3 ≤ row.length then
    match extract_iso3_from_reporter (py_strip (row.getD 2 "")) with
    | some iso3 =>
      if py_strip (row.getD 1 "") ≠ "" then
        some (py_strip (row.getD 1 ""), iso3, py_strip (row.getD 2 ""))
      else none
    | none => none
  else none

/-- The deduplication key of an entry, matching the Python dict key
(query_name, iso3). -/
def entry_key (e : String × String × String) : String × String := (e.1, e.2.1)

/-- The row loop of _load_suspended_pairs: entries are inserted into a
dict keyed by (query_name, iso3); a repeated key is counted as a
duplicate and dropped; the returned list is the dict values in insertion
order.  seen carries the keys inserted so far. -/
def load_suspended_pairs_go :
    List (List String) → List (String × String) → List (String × String × String)
  | [], _ => []
  | row :: rest, seen =>
    match row_entry row with
    | none => load_suspended_pairs_go rest seen
    | some e =>
      if entry_key e ∈ seen then load_suspended_pairs_go rest seen
      else e :: load_suspended_pairs_go rest (entry_key e :: seen)

/-- ReprocessSuspendedBot._load_suspended_pairs over the parsed CSV
rows. -/
def load_suspended_pairs (rows : List (List String)) : List (String × String × String) :=
  load_suspended_pairs_go rows []

/-- Whether a string begins with exactly three uppercase ASCII letters
after stripping: the maximal leading run of uppercase letters has length
exactly 3.  This names the condition of claim C10 on the reporter
field. -/
def begins_with_three_upper (s : String) : Bool :=
  ((py_strip s).data.takeWhile fun c => c.isAlpha && c.isUpper).length = 3

/-- The predicate selecting entries with a given deduplication key. -/
def same_key (k : String × String) (x : String × String × String) : Bool :=
  decide (entry_key x = k)

/-! ## Concrete inputs used by counterexamples and witnesses -/

/-- A pager row showing pages 5, 6, 7 with a single trailing (forward)
ellipsis anchor and no leading one: the window one obtains after
expanding forward at least once, before any backward affordance
appears. -/
def rowForwardOnly : List PagerCell :=
  [PagerCell.num 5 false, PagerCell.num 6 true, PagerCell.num 7 true, PagerCell.dots]

/-- A pager row showing only page 1 as the current page. -/
def rowOnlyPageOne : List PagerCell := [PagerCell.num 1 false]

/-- A constant snapshot sequence always showing page 1. -/
def snapOnlyPageOne : Nat → List PagerCell := fun _ => rowOnlyPageOne

/-- A unit of work that fails on every item. -/
def proc_all_fail : String → Bool := fun _ => false

/-- A unit of work that succeeds on every item. -/
def proc_all_ok : String → Bool := fun _ => true

/-- Two work items for the session-runner counterexample. -/
def c1_pairs : List (String × String) := [("A", "a"), ("B", "b")]

/-- A single work item for the ordering counterexample. -/
def c6_item : List (String × String) := [("ALB", "Albania")]

/-- A reprocess unit of work that succeeds on every pair. -/
def rp_proc_all_ok : String × String × String → Bool := fun _ => true

/-- A checkpoint write that fails exactly on the pair with ISO3 TUR. -/
def rp_mark_fails_tur : String × String × String → Bool := fun p => !(p.2.1 == "TUR")

/-- Two pairs for the checkpoint-write-failure counterexample. -/
def c4_pairs : List (String × String × String) :=
  [("q1", "TUR", "TUR 792 Turkey"), ("q1", "IRQ", "IRQ 368 Iraq")]

/-! ## Helper lemmas -/

theorem mem_of_getLast?_some {α : Type} {l : List α} {a : α}
    (h : l.getLast? = some a) : a ∈ l := by
  induction l with
  | nil => simp [List.getLast?] at h
  | cons x xs ih =>
    cases xs with
    | nil =>
      simp [List.getLast?] at h
      simp [h]
    | cons y ys =>
      rw [List.getLast?_cons_cons] at h
      exact List.mem_cons_of_mem x (ih h)

theorem hasEllipsis_of_canGoForward {row : List PagerCell}
    (h : canGoForward row = true) : hasEllipsis row = true := by
  unfold canGoForward at h
  unfold hasEllipsis
  cases hl : (anchorCells row).getLast? with
  | none => rw [hl] at h; simp at h
  | some c =>
    rw [hl] at h
    cases c with
    | num n a => simp at h
    | dots =>
      rw [List.any_eq_true]
      exact ⟨PagerCell.dots, mem_of_getLast?_some hl, rfl⟩

theorem pagLoopAux_snd_le (step : List PagerCell → Nat → Nat → PagAction)
    (snap : Nat → List PagerCell) (t : Nat) :
    ∀ fuel attempt, (pagLoopAux step snap t fuel attempt).2 ≤ attempt + fuel := by
  intro fuel
  induction fuel with
  | zero => intro a; simp [pagLoopAux]
  | succ f ih =>
    intro a
    unfold pagLoopAux
    cases hact : step (snap a) t a with
    | jump n => simp only; omega
    | stop => simp only; omega
    | wait =>
      simp only
      have := ih (a + 1)
      omega
    | clickEllipsis b =>
      simp only
      have := ih (a + 1)
      omega

theorem pagLoopAux_first_decisive (step : List PagerCell → Nat → Nat → PagAction)
    (snap : Nat → List PagerCell) (t : Nat) :
    ∀ fuel attempt k, attempt ≤ k → k < attempt + fuel →
      (∀ j, attempt ≤ j → j < k → isDecisive (step (snap j) t j) = false) →
      isDecisive (step (snap k) t k) = true →
      pagLoopAux step snap t fuel attempt = (isJumpAction (step (snap k) t k), k + 1) := by
  intro fuel
  induction fuel with
  | zero =>
    intro a k h1 h2 _ _
    omega
  | succ f ih =>
    intro a k hak hk hprev hdec
    unfold pagLoopAux
    rcases eq_or_lt_of_le hak with heq | hlt
    · subst heq
      cases hact : step (snap a) t a with
      | jump n => simp [isJumpAction]
      | stop => simp [isJumpAction]
      | wait => rw [hact] at hdec; simp [isDecisive] at hdec
      | clickEllipsis b => rw [hact] at hdec; simp [isDecisive] at hdec
    · have hnd := hprev a (le_refl a) hlt
      cases hact : step (snap a) t a with
      | jump n => rw [hact] at hnd; simp [isDecisive] at hnd
      | stop => rw [hact] at hnd; simp [isDecisive] at hnd
      | wait =>
        simp only
        exact ih (a + 1) k hlt (by omega) (fun j hj1 hj2 => hprev j (by omega) hj2) hdec
      | clickEllipsis b =>
        simp only
        exact ih (a + 1) k hlt (by omega) (fun j hj1 hj2 => hprev j (by omega) hj2) hdec

theorem pagLoopAux_no_decisive (step : List PagerCell → Nat → Nat → PagAction)
    (snap : Nat → List PagerCell) (t : Nat) :
    ∀ fuel attempt,
      (∀ j, attempt ≤ j → j < attempt + fuel → isDecisive (step (snap j) t j) = false) →
      pagLoopAux step snap t fuel attempt = (false, attempt + fuel) := by
  intro fuel
  induction fuel with
  | zero => intro a _; simp [pagLoopAux]
  | succ f ih =>
    intro a h
    unfold pagLoopAux
    have h0 := h a (le_refl a) (by omega)
    cases hact : step (snap a) t a with
    | jump n => rw [hact] at h0; simp [isDecisive] at h0
    | stop => rw [hact] at h0; simp [isDecisive] at h0
    | wait =>
      simp only
      rw [ih (a + 1) (fun j hj1 hj2 => h j (by omega) (by omega))]
      congr 1
      omega
    | clickEllipsis b =>
      simp only
      rw [ih (a + 1) (fun j hj1 hj2 => h j (by omega) (by omega))]
      congr 1
      omega

/-! ## Claim theorems: pagination resolver -/

/-- Claim C5, counterexample.  The claim requires EndOfList when the
target is below the visible range and the backward "more" affordance is
absent.  On the window with visible pages 5, 6, 7 and only a trailing
(forward) ellipsis, target page 2 is below the range and the backward
affordance is absent, yet the manage-variant resolver clicks the first
ellipsis (which is the forward one) instead of declaring EndOfList. -/
theorem c5_counterexample :
    2 < minList (visiblePages rowForwardOnly) ∧
    spec_has_backward_more rowForwardOnly = false ∧
    managePagStep rowForwardOnly 2 0 = PagAction.clickEllipsis false ∧
    managePagStep rowForwardOnly 2 0 ≠ PagAction.stop := by
  decide

/-- Claim C5, amended.  For every snapshot with nonempty visible pages:
the resolver jumps when the target is visible (both variants); the
manage variant expands forward when the target is above the range and
the trailing ellipsis is present, and returns end-of-list when the
target is above the range and the trailing ellipsis is absent; when the
target is not above the range (below it, or in a gap) and any ellipsis
is present, both the backward-affordance check and end-of-list are
skipped and the first ellipsis is clicked; the download variant expands
forward whenever the target is above the range and any ellipsis is
present, without checking it is a forward one. -/
theorem c5_amended (row : List PagerCell) (t a : Nat)
    (hvis : visiblePages row ≠ []) :
    (t ∈ visiblePages row →
      managePagStep row t a = PagAction.jump t ∧
      downloadPagStep row t a = PagAction.jump t) ∧
    (t ∉ visiblePages row → t > maxList (visiblePages row) →
      canGoForward row = true →
      managePagStep row t a = PagAction.clickEllipsis true) ∧
    (t ∉ visiblePages row → t > maxList (visiblePages row) →
      canGoForward row = false →
      managePagStep row t a = PagAction.stop) ∧
    (t ∉ visiblePages row → ¬ t > maxList (visiblePages row) →
      hasEllipsis row = true →
      managePagStep row t a = PagAction.clickEllipsis false) ∧
    (t ∉ visiblePages row → t > maxList (visiblePages row) →
      hasEllipsis row = true →
      downloadPagStep row t a = PagAction.clickEllipsis true) := by
  refine ⟨?_, ?_, ?_, ?_, ?_⟩
  · intro hmem
    constructor
    · simp [managePagStep, hvis, hmem]
    · simp [downloadPagStep, hvis, hmem]
  · intro hnm hgt hfw
    have he := hasEllipsis_of_canGoForward hfw
    simp [managePagStep, hvis, hnm, hgt, hfw, he]
  · intro hnm hgt hfw
    cases he : hasEllipsis row with
    | true => simp [managePagStep, hvis, hnm, hgt, hfw, he]
    | false => simp [managePagStep, hvis, hnm, hgt, he]
  · intro hnm hngt he
    simp [managePagStep, hvis, hnm, hngt, he]
  · intro hnm hgt he
    simp [downloadPagStep, hvis, hnm, hgt, he]

/-- Claim C5 witness: on the forward-only window, page 6 is visible so
both variants jump to it; and target 9 above the range with the trailing
ellipsis present makes the manage variant expand forward. -/
theorem c5_amended_witness :
    managePagStep rowForwardOnly 6 0 = PagAction.jump 6 ∧
    managePagStep rowForwardOnly 9 0 = PagAction.clickEllipsis true := by
  constructor
  · exact ((c5_amended rowForwardOnly 6 0 (by decide)).1 (by decide)).1
  · exact (c5_amended rowForwardOnly 9 0 (by decide)).2.1 (by decide) (by decide) (by decide)

/-- Claim C7: when the snapshot has no visible pages and no ellipsis
(grid still loading), both resolver variants wait instead of returning
end-of-list on that step, and in the attempt loop a wait step continues
with the next attempt and a fresh snapshot. -/
theorem c7_empty_window_waits (row : List PagerCell) (t a : Nat)
    (h1 : visiblePages row = []) (h2 : hasEllipsis row = false) :
    managePagStep row t a = PagAction.wait ∧
    downloadPagStep row t a = PagAction.wait ∧
    PagAction.wait ≠ PagAction.stop ∧
    (∀ snap fuel attempt, snap attempt = row →
      pagLoopAux managePagStep snap t (fuel + 1) attempt =
        pagLoopAux managePagStep snap t fuel (attempt + 1)) := by
  refine ⟨?_, ?_, by decide, ?_⟩
  · simp [managePagStep, h1]
  · simp [downloadPagStep, h1]
  · intro snap fuel attempt hsnap
    have hstep : managePagStep (snap attempt) t attempt = PagAction.wait := by
      rw [hsnap]; simp [managePagStep, h1]
    simp [pagLoopAux, hstep]

/-- Claim C7 witness at the empty snapshot. -/
theorem c7_empty_window_waits_witness :
    managePagStep [] 3 0 = PagAction.wait ∧
    downloadPagStep [] 3 0 = PagAction.wait := by
  constructor
  · exact (c7_empty_window_waits [] 3 0 (by decide) (by decide)).1
  · exact (c7_empty_window_waits [] 3 0 (by decide) (by decide)).2.1

/-- Claim C8: both pagination loops terminate within the maximum attempt
count of 15 steps; if the first decisive step (a jump or an end-of-list
style stop) occurs at attempt k below 15, the loop returns right there
with success exactly when that step is a jump; and if no step is
decisive the loop exhausts all 15 attempts and returns failure. -/
theorem c8_pagination_loop_bounded (snap : Nat → List PagerCell) (t : Nat) :
    ((manage_do_pagination_logic snap t).2 ≤ 15 ∧
     (download_do_pagination_logic snap t).2 ≤ 15) ∧
    (∀ k, k < 15 →
      (∀ j, j < k → isDecisive (managePagStep (snap j) t j) = false) →
      isDecisive (managePagStep (snap k) t k) = true →
      manage_do_pagination_logic snap t =
        (isJumpAction (managePagStep (snap k) t k), k + 1)) ∧
    ((∀ j, j < 15 → isDecisive (managePagStep (snap j) t j) = false) →
      manage_do_pagination_logic snap t = (false, 15)) ∧
    (∀ k, k < 15 →
      (∀ j, j < k → isDecisive (downloadPagStep (snap j) t j) = false) →
      isDecisive (downloadPagStep (snap k) t k) = true →
      download_do_pagination_logic snap t =
        (isJumpAction (downloadPagStep (snap k) t k), k + 1)) ∧
    ((∀ j, j < 15 → isDecisive (downloadPagStep (snap j) t j) = false) →
      download_do_pagination_logic snap t = (false, 15)) := by
  refine ⟨⟨?_, ?_⟩, ?_, ?_, ?_, ?_⟩
  · exact pagLoopAux_snd_le managePagStep snap t 15 0
  · exact pagLoopAux_snd_le downloadPagStep snap t 15 0
  · intro k hk hprev hdec
    exact pagLoopAux_first_decisive managePagStep snap t 15 0 k (Nat.zero_le k)
      (by omega) (fun j _ hj => hprev j hj) hdec
  · intro h
    exact pagLoopAux_no_decisive managePagStep snap t 15 0 (fun j _ hj => h j (by omega))
  · intro k hk hprev hdec
    exact pagLoopAux_first_decisive downloadPagStep snap t 15 0 k (Nat.zero_le k)
      (by omega) (fun j _ hj => hprev j hj) hdec
  · intro h
    exact pagLoopAux_no_decisive downloadPagStep snap t 15 0 (fun j _ hj => h j (by omega))

/-- Claim C8 witness: with page 1 always visible and targeted, the very
first step jumps, and the loop returns success after exactly one
resolution step. -/
theorem c8_pagination_loop_bounded_witness :
    manage_do_pagination_logic snapOnlyPageOne 1 =
      (isJumpAction (managePagStep (snapOnlyPageOne 0) 1 0), 1) ∧
    (manage_do_pagination_logic snapOnlyPageOne 1).2 ≤ 15 := by
  constructor
  · exact (c8_pagination_loop_bounded snapOnlyPageOne 1).2.1 0 (by omega)
      (fun j hj => absurd hj (Nat.not_lt_zero j)) (by decide)
  · exact (c8_pagination_loop_bounded snapOnlyPageOne 1).1.1

/-! ## Claim theorems: stagnation detector -/

theorem c2_aux (sessionFn : List String → List String) (hf : ∀ u, sessionFn u = u)
    (undone : List String) (hne : undone ≠ []) :
    ∀ d m, 1 ≤ d → d ≤ 5 →
      process_query_loop sessionFn (m + d) undone undone.length (5 - d) = (d, undone) := by
  intro d
  induction d with
  | zero => intro m h1 _; omega
  | succ d ih =>
    intro m h1 h5
    show process_query_loop sessionFn ((m + d) + 1) undone undone.length (5 - (d + 1)) =
      (d + 1, undone)
    rw [process_query_loop]
    simp only [if_neg hne, hf undone, check_progress, eq_self_iff_true, if_true]
    have harith : 5 - (d + 1) + 1 = 5 - d := by omega
    rw [harith]
    rcases Nat.eq_zero_or_pos d with hd | hd
    · subst hd
      simp
    · have hfalse : decide (5 ≤ 5 - d) = false := by
        rw [decide_eq_false_iff_not]
        omega
      rw [hfalse]
      simp only [Bool.false_eq_true, if_false]
      rw [ih m hd (by omega)]

/-- Claim C2: the stagnation detector increments its counter exactly when
the observed size equals the last recorded size, resets the counter and
updates the last size otherwise, and signals abort exactly when the
updated counter reaches the threshold 5; consequently, when every session
leaves the undone set unchanged (its first attempted item fails with no
successes), the orchestrator loop aborts after exactly 5 sessions. -/
theorem c2_stagnation (c l s : Nat) (sessionFn : List String → List String)
    (undone : List String) (fuel : Nat) :
    (check_progress c l s =
      if c = l then (decide (5 ≤ s + 1), l, s + 1) else (false, c, 0)) ∧
    ((∀ u, sessionFn u = u) → undone ≠ [] → 5 ≤ fuel →
      process_query sessionFn undone fuel = (5, undone)) := by
  constructor
  · unfold check_progress
    split <;> simp
  · intro hf hne hfuel
    obtain ⟨m, hm⟩ : ∃ m, fuel = m + 5 := ⟨fuel - 5, by omega⟩
    subst hm
    have h := c2_aux sessionFn hf undone hne 5 m (by omega) (by omega)
    simpa [process_query] using h

/-- Claim C2 witness: a single permanently failing item aborts the
orchestrator after exactly 5 sessions, leaving it undone. -/
theorem c2_stagnation_witness : process_query id ["X"] 5 = (5, ["X"]) :=
  (c2_stagnation 0 0 0 id ["X"] 5).2 (fun _ => rfl) (by decide) (by decide)

/-! ## Claim theorems: session runner -/

theorem run_iteration_go_stops (proc markerOk : String → Bool) :
    ∀ l, stops_on_first_failure proc ((run_iteration_go proc markerOk l).2.1) = true := by
  intro l
  induction l with
  | nil => simp [run_iteration_go, stops_on_first_failure]
  | cons kv rest ih =>
    obtain ⟨key, name⟩ := kv
    cases hp : proc key with
    | true =>
      have hgo : (run_iteration_go proc markerOk ((key, name) :: rest)).2.1 =
          key :: (run_iteration_go proc markerOk rest).2.1 := by
        simp [run_iteration_go, process_country, hp]
      rw [hgo]
      unfold stops_on_first_failure at ih ⊢
      cases hatt : (run_iteration_go proc markerOk rest).2.1 with
      | nil => simp
      | cons b bs =>
        rw [hatt] at ih
        simp only [List.dropLast_cons₂, List.all_cons, hp, Bool.true_and]
        exact ih
    | false =>
      have hgo : (run_iteration_go proc markerOk ((key, name) :: rest)).2.1 = [key] := by
        simp [run_iteration_go, process_country, hp]
      rw [hgo]
      simp [stops_on_first_failure]

theorem send_query_run_pass_attempts_all (proc : String → Bool) :
    ∀ l, (send_query_run_pass proc l).2 = l.map Prod.fst := by
  intro l
  induction l with
  | nil => simp [send_query_run_pass]
  | cons kv rest ih =>
    obtain ⟨key, name⟩ := kv
    cases hp : proc key <;> simp [send_query_run_pass, hp, ih]

/-- Claim C1, counterexample.  In the legacy SendQueryBot.run loop
(send_query_bot.py), a session in which the unit of work fails on every
item still attempts every item: with items A and B and an always-failing
unit of work, B is attempted after the failure on A in the same session,
so the session does not stop at the first failing item. -/
theorem c1_counterexample :
    (send_query_run_pass proc_all_fail c1_pairs).2 = ["A", "B"] ∧
    proc_all_fail "A" = false ∧
    stops_on_first_failure proc_all_fail
      ((send_query_run_pass proc_all_fail c1_pairs).2) = false := by
  decide

/-- Claim C1, amended.  In SendQueryBot._run_iteration
(send_execute_query_bot.py) the session stops at the first failing item:
for every work-set snapshot, every attempted item except possibly the
last one succeeded.  In the legacy SendQueryBot.run inner loop
(send_query_bot.py) there is no break on failure: every item of the
session snapshot is attempted regardless of failures. -/
theorem c1_amended (loginOk : Bool) (proc markerOk : String → Bool)
    (undone : List (String × String)) :
    stops_on_first_failure proc ((run_iteration loginOk proc markerOk undone).2.1) = true ∧
    (send_query_run_pass proc undone).2 = undone.map Prod.fst := by
  constructor
  · cases loginOk with
    | true =>
      simp only [run_iteration, if_true]
      exact run_iteration_go_stops proc markerOk undone
    | false => simp [run_iteration, stops_on_first_failure]
  · exact send_query_run_pass_attempts_all proc undone

theorem run_iteration_go_trace (proc markerOk : String → Bool) :
    ∀ l, (run_iteration_go proc markerOk l).2.2 =
      session_trace proc markerOk (l.map Prod.fst) := by
  intro l
  induction l with
  | nil => simp [run_iteration_go, session_trace]
  | cons kv rest ih =>
    obtain ⟨key, name⟩ := kv
    cases hp : proc key with
    | true =>
      simp [run_iteration_go, process_country, session_trace, item_trace, hp, ih]
    | false =>
      simp [run_iteration_go, process_country, session_trace, hp]

/-- Claim C6, counterexample.  For a successfully processed item, the
claimed order is removal from the in-memory work set before the durable
done-marker write; in SendQueryBot._run_iteration the marker write
happens inside process_country, before the key is deleted from the
undone map, so in the observable event trace the removal comes strictly
after the persistence, not before. -/
theorem c6_counterexample :
    (run_iteration true proc_all_ok proc_all_ok c6_item).2.2 =
      [Event.persistMarker "ALB", Event.removeWorkItem "ALB"] ∧
    ¬ ((run_iteration true proc_all_ok proc_all_ok c6_item).2.2.indexOf
         (Event.removeWorkItem "ALB") <
       (run_iteration true proc_all_ok proc_all_ok c6_item).2.2.indexOf
         (Event.persistMarker "ALB")) := by
  decide

/-- Claim C6, amended.  The session event trace decomposes into
per-item blocks: for every item processed successfully, the done-marker
persistence (or its logged failure) occurs immediately before the
removal of the item from the in-memory work set, and the trace ends at
the first failing item; so persistence precedes removal, not the other
way around. -/
theorem c6_amended (loginOk : Bool) (proc markerOk : String → Bool)
    (undone : List (String × String)) :
    (run_iteration loginOk proc markerOk undone).2.2 =
      session_trace proc markerOk ((if loginOk then undone else []).map Prod.fst) := by
  cases loginOk with
  | true =>
    simp only [run_iteration, if_true]
    exact run_iteration_go_trace proc markerOk undone
  | false => simp [run_iteration, session_trace]

theorem run_iteration_go_marker_independent (proc markerOk markerOk2 : String → Bool) :
    ∀ l, (run_iteration_go proc markerOk l).2.1 = (run_iteration_go proc markerOk2 l).2.1 ∧
         (run_iteration_go proc markerOk l).1 = (run_iteration_go proc markerOk2 l).1 := by
  intro l
  induction l with
  | nil => simp [run_iteration_go]
  | cons kv rest ih =>
    obtain ⟨key, name⟩ := kv
    cases hp : proc key with
    | true => simp [run_iteration_go, process_country, hp, ih.1, ih.2]
    | false => simp [run_iteration_go, process_country, hp]

/-- Claim C4, counterexample.  In ReprocessSuspendedBot.run the
checkpoint write _mark_as_processed has no local exception handling: if
the first pair is processed successfully but its checkpoint write fails,
the raised error aborts the processing loop at the run level and the
second pair is never attempted — processing does not continue with the
next item. -/
theorem c4_counterexample :
    (reprocess_run_go rp_proc_all_ok rp_mark_fails_tur c4_pairs).1 =
      [("q1", "TUR", "TUR 792 Turkey")] ∧
    (reprocess_run_go rp_proc_all_ok rp_mark_fails_tur c4_pairs).2.2 = true ∧
    ("q1", "IRQ", "IRQ 368 Iraq") ∉
      (reprocess_run_go rp_proc_all_ok rp_mark_fails_tur c4_pairs).1 := by
  decide

/-- Claim C4, amended.  In send_execute_query_bot.py a failure of the
done-marker write after a successful item is caught and logged:
process_country still reports success, and both the items attempted and
the resulting undone map of a session are independent of which marker
writes fail, so the session continues with the next item.  In
reprocess_suspended_bot.py, by contrast, a failing _mark_as_processed
write after a successful pair aborts the pass: only that pair was
attempted and the abort flag is set. -/
theorem c4_amended :
    (∀ (markerOk : Bool) (key : String), (process_country true markerOk key).1 = true) ∧
    (∀ (proc markerOk markerOk2 : String → Bool) (l : List (String × String)),
      (run_iteration_go proc markerOk l).2.1 = (run_iteration_go proc markerOk2 l).2.1 ∧
      (run_iteration_go proc markerOk l).1 = (run_iteration_go proc markerOk2 l).1) ∧
    (∀ (proc markOk : String × String × String → Bool)
       (p : String × String × String) (rest : List (String × String × String)),
      proc p = true → markOk p = false →
      reprocess_run_go proc markOk (p :: rest) = ([p], [], true)) := by
  refine ⟨?_, ?_, ?_⟩
  · intro markerOk key
    simp [process_country]
  · intro proc markerOk markerOk2 l
    exact run_iteration_go_marker_independent proc markerOk markerOk2 l
  · intro proc markOk p rest hp hm
    simp [reprocess_run_go, hp, hm]

/-- Claim C4 witness: the concrete aborting run of the reprocess pass. -/
theorem c4_amended_witness :
    reprocess_run_go rp_proc_all_ok rp_mark_fails_tur
      (("q1", "TUR", "TUR 792 Turkey") :: [("q1", "IRQ", "IRQ 368 Iraq")]) =
      ([("q1", "TUR", "TUR 792 Turkey")], [], true) :=
  c4_amended.2.2 rp_proc_all_ok rp_mark_fails_tur ("q1", "TUR", "TUR 792 Turkey")
    [("q1", "IRQ", "IRQ 368 Iraq")] (by decide) (by decide)

/-! ## Claim theorems: idempotent resume -/

theorem reprocess_run_go_subset (proc markOk : String × String × String → Bool) :
    ∀ (l : List (String × String × String)) (p : String × String × String),
      (p ∈ (reprocess_run_go proc markOk l).1 → p ∈ l) ∧
      (p ∈ (reprocess_run_go proc markOk l).2.1 → p ∈ l) := by
  intro l
  induction l with
  | nil => intro p; simp [reprocess_run_go]
  | cons q rest ih =>
    intro p
    cases hp : proc q with
    | true =>
      cases hm : markOk q with
      | true =>
        constructor
        · intro h
          simp only [reprocess_run_go, hp, hm, if_true, List.mem_cons] at h
          rcases h with h | h
          · simp [h]
          · exact List.mem_cons_of_mem q ((ih p).1 h)
        · intro h
          simp only [reprocess_run_go, hp, hm, if_true] at h
          exact List.mem_cons_of_mem q ((ih p).2 h)
      | false =>
        constructor
        · intro h
          simp [reprocess_run_go, hp, hm] at h
          simp [h]
        · intro h
          simp [reprocess_run_go, hp, hm] at h
    | false =>
      constructor
      · intro h
        simp only [reprocess_run_go, hp, Bool.false_eq_true, if_false, List.mem_cons] at h
        rcases h with h | h
        · simp [h]
        · exact List.mem_cons_of_mem q ((ih p).1 h)
      · intro h
        simp only [reprocess_run_go, hp, Bool.false_eq_true, if_false, List.mem_cons] at h
        rcases h with h | h
        · simp [h]
        · exact List.mem_cons_of_mem q ((ih p).2 h)

theorem retry_loop_subset (proc markOk : String × String × String → Bool) :
    ∀ (fuel : Nat) (failed : List (String × String × String))
      (prev noProg : Nat) (p : String × String × String),
      p ∈ (retry_loop proc markOk fuel failed prev noProg).1 → p ∈ failed := by
  intro fuel
  induction fuel with
  | zero =>
    intro failed prev noProg p h
    simp [retry_loop] at h
  | succ f ih =>
    intro failed prev noProg p h
    by_cases hc : failed = [] ∨ 5 ≤ noProg
    · simp only [retry_loop, if_pos hc] at h
      simp at h
    · simp only [retry_loop, if_neg hc] at h
      by_cases hab : (reprocess_run_go proc markOk failed).2.2 = true
      · rw [if_pos hab] at h
        exact (reprocess_run_go_subset proc markOk failed p).1 h
      · rw [if_neg hab] at h
        by_cases hlen : (reprocess_run_go proc markOk failed).2.1.length = prev
        · rw [if_pos hlen] at h
          by_cases hnp : 5 ≤ noProg + 1
          · rw [if_pos hnp] at h
            exact (reprocess_run_go_subset proc markOk failed p).1 h
          · rw [if_neg hnp] at h
            rcases List.mem_append.mp h with h | h
            · exact (reprocess_run_go_subset proc markOk failed p).1 h
            · exact (reprocess_run_go_subset proc markOk failed p).2 (ih _ _ _ p h)
        · rw [if_neg hlen] at h
          rcases List.mem_append.mp h with h | h
          · exact (reprocess_run_go_subset proc markOk failed p).1 h
          · exact (reprocess_run_go_subset proc markOk failed p).2 (ih _ _ _ p h)

/-- Claim C3: on a re-run, the initial work set computed by
ReprocessSuspendedBot.run is exactly the loaded pair list S minus the
pairs whose checkpoint key is recorded as done (D); and every pair
attempted anywhere in the run — the main pass and all retry passes —
has a key outside D, so no identifier recorded as done is ever attempted
again. -/
theorem c3_idempotent_resume (all_pairs : List (String × String × String))
    (D : List String) (proc markOk : String × String × String → Bool)
    (fuel : Nat) (p : String × String × String) :
    (p ∈ pairs_to_process all_pairs D ↔
      p ∈ all_pairs ∧ pair_key p.1 p.2.1 ∉ D) ∧
    (p ∈ reprocess_run proc markOk all_pairs D fuel → pair_key p.1 p.2.1 ∉ D) := by
  have hmem : ∀ q : String × String × String,
      q ∈ pairs_to_process all_pairs D ↔ q ∈ all_pairs ∧ pair_key q.1 q.2.1 ∉ D := by
    intro q
    simp [pairs_to_process, List.mem_filter]
  constructor
  · exact hmem p
  · intro h
    have hptp : p ∈ pairs_to_process all_pairs D := by
      unfold reprocess_run at h
      by_cases hab :
          (reprocess_run_go proc markOk (pairs_to_process all_pairs D)).2.2 = true
      · rw [if_pos hab] at h
        exact (reprocess_run_go_subset proc markOk _ p).1 h
      · rw [if_neg hab] at h
        rcases List.mem_append.mp h with h | h
        · exact (reprocess_run_go_subset proc markOk _ p).1 h
        · exact (reprocess_run_go_subset proc markOk _ p).2
            (retry_loop_subset proc markOk fuel _ _ _ p h)
    exact ((hmem p).1 hptp).2

/-- Claim C3 witness: with one loaded pair whose key is not among the
done keys, the pair is attempted and its key is indeed outside the done
set. -/
theorem c3_idempotent_resume_witness :
    pair_key "q" "TUR" ∉ ["a|BBB"] :=
  (c3_idempotent_resume [("q", "TUR", "TUR 792 Turkey")] ["a|BBB"]
    rp_proc_all_ok rp_proc_all_ok 1 ("q", "TUR", "TUR 792 Turkey")).2 (by decide)

/-! ## Claim theorems: checkpoint loaders -/

/-- Claim C9: the checkpoint loads are total over store states.  A
missing or empty store yields the empty done-set and page 1; a malformed
cursor falls back to page 1; the done-set load skips exactly the blank
or whitespace-only lines and keeps every other line stripped, never
failing the whole load. -/
theorem c9_load_total (lines : List String) (l s : String) :
    (load_processed_pairs none = [] ∧ load_last_page none = 1) ∧
    (load_processed_pairs (some []) = [] ∧ load_last_page (some "") = 1) ∧
    (py_int (py_strip s) = none → load_last_page (some s) = 1) ∧
    ("" ∉ load_processed_pairs (some lines)) ∧
    (l ∈ lines → py_strip l ≠ "" → py_strip l ∈ load_processed_pairs (some lines)) ∧
    (l ∈ load_processed_pairs (some lines) → l ∈ lines.map py_strip) := by
  refine ⟨⟨rfl, rfl⟩, ⟨rfl, by decide⟩, ?_, ?_, ?_, ?_⟩
  · intro h
    simp [load_last_page, h]
  · simp [load_processed_pairs, List.mem_filter]
  · intro hl hne
    exact List.mem_filter.mpr ⟨List.mem_map_of_mem py_strip hl, by simp [hne]⟩
  · intro h
    exact (List.mem_filter.mp h).1

/-- Claim C9 witness: a store with one real line and one blank line
keeps the stripped real line, and a malformed cursor file falls back to
page 1. -/
theorem c9_load_total_witness :
    py_strip " a " ∈ load_processed_pairs (some [" a ", ""]) ∧
    load_last_page (some "abc") = 1 := by
  constructor
  · exact (c9_load_total [" a ", ""] " a " "abc").2.2.2.2.1 (by decide) (by decide)
  · exact (c9_load_total [" a ", ""] " a " "abc").2.2.1 (by decide)

/-! ## Claim theorems: suspended-pairs CSV loader -/

theorem upper_alpha_not_ws (c : Char) (h : (c.isAlpha && c.isUpper) = true) :
    (!c.isWhitespace) = true := by
  simp only [Bool.and_eq_true] at h
  obtain ⟨_, hu⟩ := h
  by_contra hcon
  simp only [Bool.not_eq_true', Bool.not_eq_false] at hcon
  simp only [Char.isWhitespace, Bool.or_eq_true, decide_eq_true_eq] at hcon
  rcases hcon with ((h1 | h1) | h1) | h1 <;> subst h1 <;> exact absurd hu (by decide)

theorem alpha_not_lower_upper (c : Char) (ha : c.isAlpha = true)
    (hl : c.isLower = false) : (c.isAlpha && c.isUpper) = true := by
  simp only [Char.isAlpha, Bool.or_eq_true] at ha
  rcases ha with h | h
  · simp [Char.isAlpha, h]
  · rw [h] at hl
    simp at hl

theorem takeWhile_eq_of_stronger (p q : Char → Bool)
    (himp : ∀ c, q c = true → p c = true) :
    ∀ cs : List Char, (cs.takeWhile p).all q = true →
      cs.takeWhile q = cs.takeWhile p := by
  intro cs
  induction cs with
  | nil => simp
  | cons c rest ih =>
    intro hall
    cases hp : p c with
    | true =>
      rw [List.takeWhile_cons_of_pos hp] at hall ⊢
      simp only [List.all_cons, Bool.and_eq_true] at hall
      obtain ⟨hqc, hall2⟩ := hall
      rw [List.takeWhile_cons_of_pos hqc, ih hall2]
    | false =>
      cases hq : q c with
      | true => exact absurd (himp c hq) (by simp [hp])
      | false =>
        rw [List.takeWhile_cons_of_neg (by simp [hq]),
            List.takeWhile_cons_of_neg (by simp [hp])]

theorem extract_some_begins (s iso3 : String)
    (h : extract_iso3_from_reporter s = some iso3) :
    begins_with_three_upper s = true := by
  unfold extract_iso3_from_reporter at h
  by_cases hs : s = ""
  · rw [if_pos hs] at h
    exact absurd h (by simp)
  · rw [if_neg hs] at h
    by_cases hok : iso3_ok (iso3_token s) = true
    · unfold iso3_ok iso3_token at hok
      simp only [Bool.and_eq_true, decide_eq_true_eq, Bool.not_eq_true',
        List.all_eq_true, List.any_eq_true] at hok
      obtain ⟨⟨hlen, _, halpha⟩, _, hlow⟩ := hok
      unfold begins_with_three_upper
      rw [takeWhile_eq_of_stronger (fun c => !c.isWhitespace)
        (fun c => c.isAlpha && c.isUpper) upper_alpha_not_ws (py_strip s).data ?hall]
      · simp [hlen]
      case hall =>
        rw [List.all_eq_true]
        intro c hc
        exact alpha_not_lower_upper c (halpha c hc) (hlow c hc)
    · rw [if_neg hok] at h
      exact absurd h (by simp)

theorem go_key_not_seen :
    ∀ (rows : List (List String)) (seen : List (String × String))
      (e : String × String × String),
      e ∈ load_suspended_pairs_go rows seen → entry_key e ∉ seen := by
  intro rows
  induction rows with
  | nil => intro seen e h; simp [load_suspended_pairs_go] at h
  | cons row rest ih =>
    intro seen e h
    cases hre : row_entry row with
    | none =>
      simp only [load_suspended_pairs_go, hre] at h
      exact ih seen e h
    | some e2 =>
      simp only [load_suspended_pairs_go, hre] at h
      by_cases hs : entry_key e2 ∈ seen
      · rw [if_pos hs] at h
        exact ih seen e h
      · rw [if_neg hs] at h
        rcases List.mem_cons.mp h with rfl | h
        · exact hs
        · intro hmem
          exact (ih _ e h) (List.mem_cons_of_mem _ hmem)

theorem go_keys_nodup :
    ∀ (rows : List (List String)) (seen : List (String × String)),
      ((load_suspended_pairs_go rows seen).map entry_key).Nodup := by
  intro rows
  induction rows with
  | nil => intro seen; simp [load_suspended_pairs_go]
  | cons row rest ih =>
    intro seen
    cases hre : row_entry row with
    | none =>
      simp only [load_suspended_pairs_go, hre]
      exact ih seen
    | some e2 =>
      simp only [load_suspended_pairs_go, hre]
      by_cases hs : entry_key e2 ∈ seen
      · rw [if_pos hs]
        exact ih seen
      · rw [if_neg hs]
        simp only [List.map_cons, List.nodup_cons]
        constructor
        · intro hmem
          rcases List.mem_map.mp hmem with ⟨x, hx, hkx⟩
          have hnot := go_key_not_seen rest _ x hx
          apply hnot
          rw [hkx]
          exact List.mem_cons_self _ _
        · exact ih _

theorem go_find :
    ∀ (rows : List (List String)) (seen : List (String × String))
      (e : String × String × String),
      e ∈ load_suspended_pairs_go rows seen →
      (rows.filterMap row_entry).find? (same_key (entry_key e)) = some e := by
  intro rows
  induction rows with
  | nil => intro seen e h; simp [load_suspended_pairs_go] at h
  | cons row rest ih =>
    intro seen e h
    cases hre : row_entry row with
    | none =>
      simp only [load_suspended_pairs_go, hre] at h
      rw [List.filterMap_cons_none hre]
      exact ih seen e h
    | some e2 =>
      simp only [load_suspended_pairs_go, hre] at h
      rw [List.filterMap_cons_some hre]
      by_cases hs : entry_key e2 ∈ seen
      · rw [if_pos hs] at h
        have hne : ¬ same_key (entry_key e) e2 = true := by
          simp only [same_key, decide_eq_true_eq]
          intro heq
          exact (go_key_not_seen rest seen e h) (heq ▸ hs)
        rw [List.find?_cons_of_neg _ hne]
        exact ih seen e h
      · rw [if_neg hs] at h
        rcases List.mem_cons.mp h with rfl | h
        · rw [List.find?_cons_of_pos _ (by simp [same_key])]
        · have hne : ¬ same_key (entry_key e) e2 = true := by
            simp only [same_key, decide_eq_true_eq]
            intro heq
            apply go_key_not_seen rest _ e h
            rw [← heq]
            exact List.mem_cons_self _ _
          rw [List.find?_cons_of_neg _ hne]
          exact ih _ e h

/-- Claim C10: the loaded suspended-pairs list is duplicate-free on the
(query_name, iso3) key; each returned entry is the first CSV entry with
its key (first occurrence kept); and any reporter field that does not
begin with exactly three uppercase letters is rejected by the ISO3
extraction, so its row contributes nothing to the result. -/
theorem c10_csv_dedup (rows : List (List String)) (e : String × String × String)
    (s : String) (r : List String) :
    ((load_suspended_pairs rows).map entry_key).Nodup ∧
    (e ∈ load_suspended_pairs rows →
      (rows.filterMap row_entry).find? (same_key (entry_key e)) = some e) ∧
    (begins_with_three_upper s = false → extract_iso3_from_reporter s = none) ∧
    (begins_with_three_upper (py_strip (r.getD 2 "")) = false → row_entry r = none) := by
  refine ⟨go_keys_nodup rows [], ?_, ?_, ?_⟩
  · intro h
    exact go_find rows [] e h
  · intro hb
    cases hx : extract_iso3_from_reporter s with
    | none => rfl
    | some i =>
      have := extract_some_begins s i hx
      rw [hb] at this
      exact absurd this (by decide)
  · intro hb
    have hnone : extract_iso3_from_reporter (py_strip (r.getD 2 "")) = none := by
      cases hx : extract_iso3_from_reporter (py_strip (r.getD 2 "")) with
      | none => rfl
      | some i =>
        have := extract_some_begins _ i hx
        rw [hb] at this
        exact absurd this (by decide)
    unfold row_entry
    by_cases hlen : 3 ≤ r.length
    · rw [if_pos hlen, hnone]
    · rw [if_neg hlen]

/-- Claim C10 witness: on a CSV with a duplicate (query, iso3) row and a
lowercase reporter row, the loader keeps exactly the first occurrence
and the lowercase reporter is rejected. -/
theorem c10_csv_dedup_witness :
    ((([["1", "q", "TUR 792 Turkey"], ["2", "q", "TUR 792"],
        ["3", "q", "turkey"]] : List (List String)).filterMap row_entry).find?
      (same_key (entry_key ("q", "TUR", "TUR 792 Turkey"))) =
      some ("q", "TUR", "TUR 792 Turkey")) ∧
    row_entry ["3", "q", "turkey"] = none := by
  constructor
  · exact (c10_csv_dedup [["1", "q", "TUR 792 Turkey"], ["2", "q", "TUR 792"],
      ["3", "q", "turkey"]] ("q", "TUR", "TUR 792 Turkey") "x" []).2.1 (by decide)
  · exact (c10_csv_dedup [] ("", "", "") "x" ["3", "q", "turkey"]).2.2.2 (by decide)

end UNComtrade
